import Mathlib

/-!
Shallow embedding of the srv HTTP library (package srv) and proofs of the
spec claims. Definitions are translated from the Go source files
(middleware.go, context.go, util.go, validator.go, the server/group file and
the handler file); external collaborators (encoding/json marshalling, the
transport sink, HTTP date parsing and formatting) are modelled as explicit
parameters, matching the spec's out-of-scope boundary.
-/

namespace Srv

/-! ### JSON values (model of the Go `any` payloads handed to json.Marshal) -/

/-- Model of a JSON-marshallable Go value stored in `Response.jsonBody`. -/
inductive JVal where
  | null : JVal
  | bool (b : Bool) : JVal
  | num (n : Int) : JVal
  | str (s : String) : JVal
  | arr (xs : List JVal) : JVal
  | obj (fields : List (String × JVal)) : JVal

/-- A sample marshaller agreeing with encoding/json on flat values free of
characters needing escapes; on nested values it reports an error. Used only
to instantiate theorems at concrete inputs (json.Marshal itself is an
external collaborator, kept as a parameter elsewhere). -/
def marshalFlat : JVal → Except String String
  | .null => .ok "null"
  | .bool b => .ok (cond b "true" "false")
  | .num n => .ok (toString n)
  | .str s => .ok ("\"" ++ s ++ "\"")
  | .arr _ => .error "unsupported"
  | .obj _ => .error "unsupported"

/-! ### Headers (model of net/http.Header under Set/Get)

Go's http.Header is a map from canonical header name to a list of values.
Every call site in this repository already passes the canonical spelling, so
keys are compared verbatim. The list keeps first-insertion position for a
key; `headerSet` replaces all values of a key with the single new value,
as http.Header.Set does. -/

abbrev HeaderMap := List (String × List String)

/-- http.Header.Set: replace the values stored under a key with one value. -/
def headerSet : HeaderMap → String → String → HeaderMap
  | [], k, v => [(k, [v])]
  | (k', vs) :: rest, k, v =>
    if k' = k then (k, [v]) :: rest else (k', vs) :: headerSet rest k v

/-- http.Header.Get: first value stored under a key, or "" when absent. -/
def headerGet : HeaderMap → String → String
  | [], _ => ""
  | (k', vs) :: rest, k => if k' = k then vs.headD "" else headerGet rest k

/-! ### Cookies (net/http.Cookie, the fields this repository sets) -/

structure Cookie where
  name : String
  value : String
  maxAge : Int
  path : String
  domain : String
  secure : Bool
  httpOnly : Bool
deriving DecidableEq, Repr

/-! ### Response (middleware.go)

`bodyFn` in Go is an arbitrary `func(io.Writer) error`; it is modelled by
its observable effect: the chunks it writes to the sink and the error it
returns. `rawBody` is `Option String` so that the Go nil slice (never set)
stays distinguishable from a set body; Write treats nil as empty.
`afterWrite` callbacks are opaque side effects, modelled as numeric labels
whose invocation is recorded in the write trace. -/

abbrev BodyFnDen := List String × Option String

structure Response where
  StatusCode : Nat
  headers : HeaderMap
  cookies : List Cookie
  bodyFn : Option BodyFnDen
  jsonBody : Option JVal
  rawBody : Option String
  afterWrite : List Nat

/-- Respond creates a new Response with status 200 and empty headers. -/
def Respond : Response :=
  { StatusCode := 200, headers := [], cookies := [], bodyFn := none
    jsonBody := none, rawBody := none, afterWrite := [] }

/-- Status sets the HTTP status code for the response. -/
def Response.Status (r : Response) (status : Nat) : Response :=
  { r with StatusCode := status }

/-- ContentType sets the "Content-Type" header in the response. -/
def Response.ContentType (r : Response) (contentType : String) : Response :=
  { r with headers := headerSet r.headers "Content-Type" contentType }

/-- Json sets the response body to a JSON-encoded representation of the
provided data and sets Content-Type to "application/json;charset=UTF-8". -/
def Response.Json (r : Response) (data : JVal) : Response :=
  ({ r with jsonBody := some data }).ContentType "application/json;charset=UTF-8"

/-- Html sets the response body to an HTML string and sets Content-Type to
"text/html;charset=UTF-8". -/
def Response.Html (r : Response) (html : String) : Response :=
  ({ r with rawBody := some html }).ContentType "text/html;charset=UTF-8"

/-- Text sets the response body to a plain text string and sets Content-Type
to "text/plain;charset=UTF-8". -/
def Response.Text (r : Response) (text : String) : Response :=
  ({ r with rawBody := some text }).ContentType "text/plain;charset=UTF-8"

/-- Body sets the response body to the provided data and sets Content-Type. -/
def Response.Body (r : Response) (contentType : String) (data : String) : Response :=
  { r with rawBody := some data
           headers := headerSet r.headers "Content-Type" contentType }

/-- BodyFn sets the streaming body function and sets Content-Type. -/
def Response.SetBodyFn (r : Response) (contentType : String) (fn : BodyFnDen) : Response :=
  { r with bodyFn := some fn
           headers := headerSet r.headers "Content-Type" contentType }

/-- statusWithBody: set the status code and, only when a body argument was
supplied (Go variadic, at most one used), also set the JSON body. -/
def Response.statusWithBody (r : Response) (status : Nat) (body : Option JVal) : Response :=
  match body with
  | some b => ({ r with StatusCode := status }).Json b
  | none => { r with StatusCode := status }

/-- Created sets status 201 and optionally the body. -/
def Response.Created (r : Response) (body : Option JVal) : Response :=
  r.statusWithBody 201 body

/-- BadRequest sets status 400 and optionally the body. -/
def Response.BadRequest (r : Response) (body : Option JVal) : Response :=
  r.statusWithBody 400 body

/-- NotFound sets status 404 and optionally the body. -/
def Response.NotFound (r : Response) (body : Option JVal) : Response :=
  r.statusWithBody 404 body

/-- Conflict sets status 409 and optionally the body. -/
def Response.Conflict (r : Response) (body : Option JVal) : Response :=
  r.statusWithBody 409 body

/-- NotModified sets status 304. -/
def Response.NotModified (r : Response) : Response :=
  { r with StatusCode := 304 }

/-- CookieRaw appends a cookie to the response. -/
def Response.CookieRaw (r : Response) (cookie : Cookie) : Response :=
  { r with cookies := r.cookies ++ [cookie] }

/-- AfterWrite adds a function (label) to be called after the response is
written. -/
def Response.AfterWrite (r : Response) (fn : Nat) : Response :=
  { r with afterWrite := r.afterWrite ++ [fn] }

/-! ### Writing a response (Response.Write)

The sink (http.ResponseWriter) is modelled by the trace of events handed to
it, plus a switch saying whether its Write call on the body bytes fails.
Go iterates the header map in unspecified order; the model fixes the list
order, which no claim depends on. -/

inductive WEvent where
  | header (k v : String) : WEvent
  | setCookie (c : Cookie) : WEvent
  | writeHeader (status : Nat) : WEvent
  | bodyChunk (s : String) : WEvent
  | callback (id : Nat) : WEvent
deriving DecidableEq, Repr

def WEvent.isCallback : WEvent → Bool
  | .callback _ => true
  | _ => false

structure Sink where
  writeErr : Option String
deriving DecidableEq, Repr

/-- The part of Response.Write after the body bytes are determined:
WriteHeader(status), then either the streaming body function or a single
w.Write of the body bytes. -/
def writeTail (r : Response) (sink : Sink) (pre : List WEvent) (body : String) :
    List WEvent × Option String :=
  let evs := pre ++ [WEvent.writeHeader r.StatusCode]
  match r.bodyFn with
  | some fn => (evs ++ fn.1.map WEvent.bodyChunk, fn.2)
  | none =>
    match sink.writeErr with
    | some e => (evs, some e)
    | none => (evs ++ [WEvent.bodyChunk body], none)

/-- The body of Response.Write minus the deferred after-write loop: copy
headers and cookies to the sink, compute the body (the raw body, overridden
by the marshalled JSON body whenever one is set, with marshal failure
returned as the error), then write status and body. -/
def writeCore (r : Response) (marshal : JVal → Except String String) (sink : Sink) :
    List WEvent × Option String :=
  let hdrEvs := r.headers.flatMap fun kv => kv.2.map (WEvent.header kv.1)
  let pre := hdrEvs ++ r.cookies.map WEvent.setCookie
  match r.jsonBody with
  | some j =>
    match marshal j with
    | .error e => (pre, some e)
    | .ok b => writeTail r sink pre b
  | none => writeTail r sink pre (r.rawBody.getD "")

/-- Response.Write: run the write, then (Go defer) invoke every after-write
callback in registration order; the write's error is returned unchanged. -/
def Response.Write (r : Response) (marshal : JVal → Except String String) (sink : Sink) :
    List WEvent × Option String :=
  let out := writeCore r marshal sink
  (out.1 ++ r.afterWrite.map WEvent.callback, out.2)

/-- The body bytes an event hands to the sink, if any. -/
def WEvent.chunk? : WEvent → Option String
  | .bodyChunk s => some s
  | _ => none

/-- The body chunks a write trace hands to the sink. -/
def bodyChunks (evs : List WEvent) : List String :=
  evs.filterMap WEvent.chunk?

/-! ### Request context (context.go)

The model keeps the fields the claims observe: the memoized IP resolution
state. The resolver's result for the request is passed explicitly (the
resolver is pure for a fixed request, spec 4.1), and each accessor reports
whether this call invoked the resolver, which instruments the call count. -/

structure Context where
  ipResolved : Bool
  ipAddresses : List String

/-- NewContext: fresh per-request context (zero values for the lazy fields). -/
def NewContext : Context := { ipResolved := false, ipAddresses := [] }

/-- The memoization step shared by ClientIP and RemoteIP: on first use store
the resolver's result and mark it resolved; afterwards reuse the stored
sequence. The boolean reports whether the resolver was invoked. -/
def Context.resolveIfNeeded (res : List String) (c : Context) : Context × Bool :=
  if c.ipResolved then (c, false)
  else ({ c with ipAddresses := res, ipResolved := true }, true)

/-- ClientIP: resolve (memoized) and return the first address. Go indexes
ipAddresses[0]; the resolver contract guarantees a non-empty sequence. -/
def Context.ClientIP (res : List String) (c : Context) : Context × String × Bool :=
  let out := c.resolveIfNeeded res
  (out.1, out.1.ipAddresses.headD "", out.2)

/-- RemoteIP: resolve (memoized) and return the last address. -/
def Context.RemoteIP (res : List String) (c : Context) : Context × String × Bool :=
  let out := c.resolveIfNeeded res
  (out.1, out.1.ipAddresses.getLastD "", out.2)

/-- A call made against the context's IP facade. -/
inductive IPCall where
  | client
  | remote
deriving DecidableEq, Repr

/-- Run a sequence of ClientIP/RemoteIP calls, collecting the returned
addresses and the number of resolver invocations. -/
def runIPCalls (res : List String) : List IPCall → Context → Context × List String × Nat
  | [], c => (c, [], 0)
  | call :: rest, c =>
    let step := match call with
      | .client => c.ClientIP res
      | .remote => c.RemoteIP res
    let tail := runIPCalls res rest step.1
    (tail.1, step.2.1 :: tail.2.1, (cond step.2.2 1 0) + tail.2.2)

/-! ### Middleware chain and dispatch (server/group file, handler file) -/

/-- Handler: a function from the request context to a Response pointer;
the Go nil pointer is `none`. -/
abbrev Handler := Context → Option Response

/-- Middleware: a function taking the context and a next handler. -/
abbrev Middleware := Context → Handler → Option Response

/-- wrapMiddleware: nest the middleware list around the handler. The empty
case is unreachable from the Go code (wrap only calls this with a non-empty
list); it is completed with the identity wrapping. -/
def wrapMiddleware : List Middleware → Handler → Handler
  | [], handler => handler
  | [m], handler => fun c => m c handler
  | m :: rest, handler => fun c => m c (wrapMiddleware rest handler)

/-- The chain wrap builds before returning the request function:
h := handler; if len(middleware) > 0 then h = wrapMiddleware(...). -/
def wrapChain (middleware : List Middleware) (handler : Handler) : Handler :=
  if middleware.length > 0 then wrapMiddleware middleware handler else handler

/-- Outcome of the per-request function wrap returns: either a panic (nil
handler result) with nothing written to the sink, or a completed write
whose error, if any, is logged. -/
inductive WrapOutcome where
  | panicked (msg : String)
  | ok (events : List WEvent) (logged : Option String)

/-- The request function built by wrap: run the chain on a fresh context;
a nil response panics before anything reaches the sink; otherwise the
response is written once and a write error is only logged. -/
def wrapDispatch (middleware : List Middleware) (handler : Handler) (c : Context)
    (marshal : JVal → Except String String) (sink : Sink) : WrapOutcome :=
  match wrapChain middleware handler c with
  | none => .panicked "received nil response from handler"
  | some res =>
    let out := res.Write marshal sink
    .ok out.1 out.2

/-! ### Route registration (server/group file)

A mux registration is determined by the pattern and the arguments handed to
wrap (the combined middleware list and the handler). -/

structure Registration where
  pattern : String
  middleware : List Middleware
  handler : Handler

structure ServerM where
  middleware : List Middleware

/-- Server.handleMethod: an empty path is replaced by "/" before the
pattern "METHOD path" is registered with the wrapped chain. -/
def ServerM.handleMethod (s : ServerM) (method path : String) (handler : Handler)
    (middleware : List Middleware) : Registration :=
  let path := if path = "" then "/" else path
  { pattern := method ++ " " ++ path
    middleware := s.middleware ++ middleware
    handler := handler }

/-- Server.GET delegates to handleMethod with method "GET". -/
def ServerM.GET (s : ServerM) (path : String) (handler : Handler)
    (middleware : List Middleware) : Registration :=
  s.handleMethod "GET" path handler middleware

structure GroupM where
  basePath : String
  middleware : List Middleware

/-- Group.handleMethod: the pattern is "METHOD basePath+path" with no
empty-path substitution. -/
def GroupM.handleMethod (g : GroupM) (method path : String) (handler : Handler)
    (middleware : List Middleware) : Registration :=
  { pattern := method ++ " " ++ g.basePath ++ path
    middleware := g.middleware ++ middleware
    handler := handler }

/-! ### Times and the If-Modified-Since conditional (util.go, context.go)

Go time.Time is modelled as nanoseconds since the Go zero time; After is
the strict order and Truncate(time.Second) floors to a whole second, as
Go's Truncate rounds down since the zero time. HTTP date parsing and
formatting are external (net/http.ParseTime, Time.Format) and passed as
parameters. -/

abbrev GoTime := Int

def nsPerSecond : Int := 1000000000

/-- maxTime (util.go): fold the After comparison from the zero time. -/
def maxTime (t : List GoTime) : GoTime :=
  t.foldl (fun mt ct => if ct > mt then ct else mt) 0

/-- time.Time.Truncate(time.Second): floor to a multiple of one second. -/
def truncateSecond (t : GoTime) : GoTime :=
  nsPerSecond * Int.fdiv t nsPerSecond

/-- ErrorDto (dto.go); both fields carry the json omitempty tag. -/
structure ErrorDto where
  Code : String
  Message : String
deriving DecidableEq, Repr

/-- The JSON value json.Marshal sees for an ErrorDto (omitempty fields). -/
def ErrorDto.toJVal (e : ErrorDto) : JVal :=
  .obj ((if e.Code = "" then [] else [("code", .str e.Code)]) ++
    (if e.Message = "" then [] else [("message", .str e.Message)]))

/-- LastModified sets the "Last-Modified" header, formatted by the external
HTTP time formatter. -/
def Response.LastModified (r : Response) (fmtTime : GoTime → String) (t : GoTime) : Response :=
  { r with headers := headerSet r.headers "Last-Modified" (fmtTime t) }

/-- The three outcomes of Context.IfModifiedSince: header absent, header
present but unparsable, or a parsed time. -/
inductive IMSHeader where
  | absent
  | parseError
  | parsed (t : GoTime)

/-- Context.IfModifiedSince: empty header means absent; otherwise the
external HTTP date parser decides. -/
def ifModifiedSince (parseTime : String → Option GoTime) (ims : String) : IMSHeader :=
  if ims = "" then .absent
  else
    match parseTime ims with
    | none => .parseError
    | some t => .parsed t

/-- Context.ConditionalIfModifiedSince: bad request on a parse error, nil
when the header is absent, nil when the truncated maximum last-modified
time is strictly after the parsed time, and 304 Not Modified carrying a
Last-Modified header otherwise. -/
def conditionalIfModifiedSince (parseTime : String → Option GoTime)
    (fmtTime : GoTime → String) (ims : String) (lastModified : List GoTime) :
    Option Response :=
  match ifModifiedSince parseTime ims with
  | .parseError =>
    some (Respond.BadRequest (some (ErrorDto.toJVal
      ⟨"BadRequest", "invalid value for \x27If-Modified-Since\x27"⟩)))
  | .absent => none
  | .parsed t =>
    let lm := truncateSecond (maxTime lastModified)
    if lm > t then none
    else some ((Respond.NotModified).LastModified fmtTime lm)

/-! ### Client IP resolver

Modelled from the spec: the resolver implementation file (NewIPResolver and
IPResolver.Resolve) is not part of the sources, only its tests are; the
definitions below follow spec section 4.1 word by word. -/

structure IPResolver where
  RemoteIPHeaders : List String
  TrustRemoteIdHeaders : Bool

/-- Modelled from the spec: NewIPResolver builds the resolver from the
ordered trusted header names and the trust flag. -/
def NewIPResolver (headers : List String) (trust : Bool) : IPResolver :=
  { RemoteIPHeaders := headers, TrustRemoteIdHeaders := trust }

/-- The request data the resolver consults: the raw remote address and the
headers (single-valued lookups, first match, "" when absent). -/
structure IPRequest where
  remoteAddr : String
  headers : List (String × String)

def IPRequest.getHeader (req : IPRequest) (name : String) : String :=
  ((req.headers.find? fun kv => kv.1 = name).map fun kv => kv.2).getD ""

/-- Split a character list at every occurrence of a separator, keeping
empty segments, as Go strings.Split does on the underlying runes. -/
def splitList (sep : Char) : List Char → List (List Char)
  | [] => [[]]
  | c :: rest =>
    let r := splitList sep rest
    if c = sep then [] :: r
    else
      match r with
      | [] => [[c]]
      | h :: t => (c :: h) :: t

/-- Drop leading and trailing whitespace, as Go strings.TrimSpace does. -/
def trimChars (s : List Char) : List Char :=
  ((s.dropWhile Char.isWhitespace).reverse.dropWhile Char.isWhitespace).reverse

/-- Modelled from the spec: parse the host from the raw remote-address
field (net.SplitHostPort shape host:port); on parse failure substitute the
empty string rather than failing. -/
def hostFromRemoteAddr (s : String) : String :=
  match splitList ':' s.data with
  | [host, _] => host.asString
  | _ => ""

/-- The numeric value of a digit string. -/
def decOctetVal (s : List Char) : Nat :=
  s.foldl (fun n c => n * 10 + (c.toNat - 48)) 0

/-- Modelled from the spec: a decimal octet of a dotted-quad IP literal. -/
def isDecOctet (s : List Char) : Bool :=
  !s.isEmpty && s.all Char.isDigit && decide (s.length ≤ 3) &&
    decide (decOctetVal s ≤ 255)

/-- Modelled from the spec: a valid IP literal, in the IPv4 dotted-quad
form every observed entry takes; malformed entries are dropped. -/
def isIPLiteral (s : List Char) : Bool :=
  match splitList '.' s with
  | [a, b, c, d] => isDecOctet a && isDecOctet b && isDecOctet c && isDecOctet d
  | _ => false

/-- Modelled from the spec: for each configured header in order, when
present split on commas, trim each entry and keep only valid IP literals;
concatenate in header order then intra-header left-to-right order. -/
def headerDerivedChain (r : IPResolver) (req : IPRequest) : List String :=
  r.RemoteIPHeaders.flatMap fun name =>
    let v := req.getHeader name
    if v = "" then []
    else (((splitList ',' v.data).map fun e => trimChars e).filter isIPLiteral).map
      fun e => e.asString

/-- Modelled from the spec: Resolve computes the peer address first; with
trust disabled or no headers configured the result is exactly the peer;
otherwise the header-derived chain, with the peer appended when the chain
is empty or its last element differs from the peer. -/
def IPResolver.Resolve (r : IPResolver) (req : IPRequest) : List String :=
  let peer := hostFromRemoteAddr req.remoteAddr
  if !r.TrustRemoteIdHeaders || r.RemoteIPHeaders.isEmpty then [peer]
  else
    let chain := headerDerivedChain r req
    if chain = [] ∨ chain.getLast? ≠ some peer then chain ++ [peer] else chain

/-! ### Validation aggregation (validator.go) -/

structure Violation where
  Field : String
  Code : String
  Message : String
deriving DecidableEq, Repr

structure ValidationError where
  Code : String
  Message : String
  Errors : List Violation
deriving DecidableEq, Repr

/-- merge: append to an existing aggregate, or create the container with
code "invalid_data" and message "Invalid data" on first use. Go mutates and
returns the same pointer; the model returns the updated value. -/
def merge (prev : Option ValidationError) (v : List Violation) : ValidationError :=
  match prev with
  | some p => { p with Errors := p.Errors ++ v }
  | none => { Code := "invalid_data", Message := "Invalid data", Errors := v }

/-- Require: pass the previous aggregate through when the condition holds,
else append one violation (creating the aggregate if needed). -/
def Require (field code message : String) (cond : Bool)
    (prev : Option ValidationError) : Option ValidationError :=
  if cond then prev else some (merge prev [⟨field, code, message⟩])

/-- One Require-style check in a chain: the violation data it would record
and the condition it tests. -/
structure Check where
  Field : String
  Code : String
  Message : String
  cond : Bool
deriving DecidableEq, Repr

def Check.violation (c : Check) : Violation :=
  ⟨c.Field, c.Code, c.Message⟩

/-- Thread a list of checks through Require, as caller code chains them. -/
def runChecks (checks : List Check) (prev : Option ValidationError) :
    Option ValidationError :=
  checks.foldl (fun acc c => Require c.Field c.Code c.Message c.cond acc) prev

/-! ## Lemmas about write traces -/

@[simp] theorem chunk?_header (k v : String) : (WEvent.header k v).chunk? = none := rfl

@[simp] theorem chunk?_setCookie (c : Cookie) : (WEvent.setCookie c).chunk? = none := rfl

@[simp] theorem chunk?_writeHeader (s : Nat) : (WEvent.writeHeader s).chunk? = none := rfl

@[simp] theorem chunk?_bodyChunk (s : String) : (WEvent.bodyChunk s).chunk? = some s := rfl

@[simp] theorem chunk?_callback (id : Nat) : (WEvent.callback id).chunk? = none := rfl

@[simp] theorem isCallback_header (k v : String) : (WEvent.header k v).isCallback = false := rfl

@[simp] theorem isCallback_setCookie (c : Cookie) : (WEvent.setCookie c).isCallback = false := rfl

@[simp] theorem isCallback_writeHeader (s : Nat) : (WEvent.writeHeader s).isCallback = false := rfl

@[simp] theorem isCallback_bodyChunk (s : String) : (WEvent.bodyChunk s).isCallback = false := rfl

@[simp] theorem isCallback_callback (id : Nat) : (WEvent.callback id).isCallback = true := rfl

theorem bodyChunks_append (a b : List WEvent) :
    bodyChunks (a ++ b) = bodyChunks a ++ bodyChunks b := by
  simp [bodyChunks, List.filterMap_append]

@[simp] theorem bodyChunks_cons_writeHeader (s : Nat) (l : List WEvent) :
    bodyChunks (WEvent.writeHeader s :: l) = bodyChunks l := by
  simp [bodyChunks, List.filterMap_cons]

@[simp] theorem bodyChunks_cons_bodyChunk (s : String) (l : List WEvent) :
    bodyChunks (WEvent.bodyChunk s :: l) = s :: bodyChunks l := by
  simp [bodyChunks, List.filterMap_cons]

@[simp] theorem bodyChunks_mapHeader (k : String) (vs : List String) :
    bodyChunks (vs.map (WEvent.header k)) = [] := by
  simp [bodyChunks, List.filterMap_map, Function.comp_def]

@[simp] theorem bodyChunks_headerEvents (l : HeaderMap) :
    bodyChunks (l.flatMap fun kv => kv.2.map (WEvent.header kv.1)) = [] := by
  induction l with
  | nil => rfl
  | cons kv rest ih => simp [List.flatMap_cons, bodyChunks_append, ih]

@[simp] theorem bodyChunks_cookieEvents (cs : List Cookie) :
    bodyChunks (cs.map WEvent.setCookie) = [] := by
  simp [bodyChunks, List.filterMap_map, Function.comp_def]

@[simp] theorem bodyChunks_callbackEvents (ids : List Nat) :
    bodyChunks (ids.map WEvent.callback) = [] := by
  simp [bodyChunks, List.filterMap_map, Function.comp_def]

@[simp] theorem bodyChunks_chunkEvents (cs : List String) :
    bodyChunks (cs.map WEvent.bodyChunk) = cs := by
  simp [bodyChunks, List.filterMap_map, Function.comp_def]

@[simp] theorem filterCallback_mapHeader (k : String) (vs : List String) :
    (vs.map (WEvent.header k)).filter WEvent.isCallback = [] := by
  simp [List.filter_map, Function.comp_def]

@[simp] theorem filterCallback_headerEvents (l : HeaderMap) :
    (l.flatMap fun kv => kv.2.map (WEvent.header kv.1)).filter WEvent.isCallback = [] := by
  induction l with
  | nil => rfl
  | cons kv rest ih => simp [List.flatMap_cons, List.filter_append, ih]

@[simp] theorem filterCallback_cookieEvents (cs : List Cookie) :
    (cs.map WEvent.setCookie).filter WEvent.isCallback = [] := by
  simp [List.filter_map, Function.comp_def]

@[simp] theorem filterCallback_chunkEvents (cs : List String) :
    (cs.map WEvent.bodyChunk).filter WEvent.isCallback = [] := by
  simp [List.filter_map, Function.comp_def]

/-- No event produced by the write itself is a callback event: callbacks
appear in a trace only through the deferred after-write loop. -/
theorem filterCallback_writeCore (r : Response) (marshal : JVal → Except String String)
    (sink : Sink) : (writeCore r marshal sink).1.filter WEvent.isCallback = [] := by
  unfold writeCore writeTail
  cases hj : r.jsonBody with
  | none =>
    cases hf : r.bodyFn with
    | none => cases he : sink.writeErr <;> simp [he, List.filter_append]
    | some fn => simp [List.filter_append]
  | some j =>
    cases hm : marshal j with
    | error e => simp [hm, List.filter_append]
    | ok b =>
      cases hf : r.bodyFn with
      | none => cases he : sink.writeErr <;> simp [hm, he, List.filter_append]
      | some fn => simp [hm, List.filter_append]

theorem headerGet_headerSet_self (h : HeaderMap) (k v : String) :
    headerGet (headerSet h k v) k = v := by
  induction h with
  | nil => simp [headerSet, headerGet]
  | cons kv rest ih =>
    by_cases hk : kv.1 = k
    · simp [headerSet, hk, headerGet]
    · simp [headerSet, hk, headerGet, ih]

/-! ## Claim C2 -/

/-- C2: every callback registered with AfterWrite is invoked exactly once
per Write call, in registration order (the callback events of the trace are
exactly the registered ones, in order); they run after the whole write
attempt (the trace is the write attempt's events, none of which is a
callback, followed by the callbacks), regardless of whether marshalling or
the body write failed; and the write attempt's error is still returned to
the caller unchanged. -/
theorem write_afterWrite_exactly_once (r : Response)
    (marshal : JVal → Except String String) (sink : Sink) :
    ((r.Write marshal sink).1.filter WEvent.isCallback
        = r.afterWrite.map WEvent.callback)
    ∧ ((r.Write marshal sink).1
        = (writeCore r marshal sink).1 ++ r.afterWrite.map WEvent.callback)
    ∧ ((writeCore r marshal sink).1.filter WEvent.isCallback = [])
    ∧ ((r.Write marshal sink).2 = (writeCore r marshal sink).2) := by
  refine ⟨?_, rfl, filterCallback_writeCore r marshal sink, rfl⟩
  simp [Response.Write, List.filter_append, filterCallback_writeCore,
    List.filter_map, Function.comp_def]

/-! ## Claim C1 -/

/-- C1 counterexample: on a response whose JSON body is set first and whose
raw body is set afterwards via Text, Write hands the JSON serialization to
the sink, not the raw body bytes, while the Content-Type is that of the
raw body; last-assignment-wins fails for the written body. -/
theorem last_write_wins_counterexample :
    bodyChunks (((Respond.Json (.str "x")).Text "hi").Write marshalFlat ⟨none⟩).1
        = ["\"x\""]
    ∧ ("\"x\"" : String) ≠ "hi"
    ∧ headerGet ((Respond.Json (.str "x")).Text "hi").headers "Content-Type"
        = "text/plain;charset=UTF-8" :=
  ⟨rfl, by decide, rfl⟩

/-- C1 (amended): whenever a JSON body is set, Write writes its
serialization regardless of whether a raw body was assigned before or
after it (the JSON body takes precedence over the raw body in the written
output, in both orders), while the Content-Type header is that of the
last-set body kind. -/
theorem json_body_precedence (r : Response) (j : JVal) (ct data b : String)
    (marshal : JVal → Except String String) (hm : marshal j = .ok b)
    (hfn : r.bodyFn = none) :
    bodyChunks (((r.Json j).Body ct data).Write marshal ⟨none⟩).1 = [b]
    ∧ headerGet ((r.Json j).Body ct data).headers "Content-Type" = ct
    ∧ bodyChunks (((r.Body ct data).Json j).Write marshal ⟨none⟩).1 = [b]
    ∧ headerGet ((r.Body ct data).Json j).headers "Content-Type"
        = "application/json;charset=UTF-8" := by
  refine ⟨?_, ?_, ?_, ?_⟩
  · simp [Response.Write, writeCore, writeTail, Response.Json, Response.Body,
      Response.ContentType, hm, hfn, bodyChunks_append]
  · simp [Response.Json, Response.Body, Response.ContentType, headerGet_headerSet_self]
  · simp [Response.Write, writeCore, writeTail, Response.Json, Response.Body,
      Response.ContentType, hm, hfn, bodyChunks_append]
  · simp [Response.Json, Response.Body, Response.ContentType, headerGet_headerSet_self]

/-- Witness for the amended C1 at a concrete response. -/
theorem json_body_precedence_witness :
    marshalFlat (.str "x") = .ok "\"x\""
    ∧ Respond.bodyFn = none
    ∧ bodyChunks (((Respond.Json (.str "x")).Body "text/plain;charset=UTF-8" "hi").Write
        marshalFlat ⟨none⟩).1 = ["\"x\""] :=
  ⟨rfl, rfl, (json_body_precedence Respond (.str "x") "text/plain;charset=UTF-8"
    "hi" "\"x\"" marshalFlat rfl rfl).1⟩

/-! ## Claim C3 -/

/-- C3: the chain wrap builds is the handler itself for an empty middleware
list; for a non-empty list it invokes the head middleware with the
composition of the remaining list around the handler as its next
(right-associative nesting); and a middleware whose result at a context
ignores its next argument determines the chain's result there regardless of
the later middleware and the handler (short-circuit). -/
theorem wrapChain_composition :
    (∀ h : Handler, wrapChain [] h = h)
    ∧ (∀ (m : Middleware) (ms : List Middleware) (h : Handler) (c : Context),
        wrapChain (m :: ms) h c = m c (wrapChain ms h))
    ∧ (∀ (m : Middleware) (ms ms' : List Middleware) (h h' : Handler) (c : Context)
        (res : Option Response), (∀ next, m c next = res) →
        wrapChain (m :: ms) h c = res ∧ wrapChain (m :: ms') h' c = res) := by
  have h2 : ∀ (m : Middleware) (ms : List Middleware) (h : Handler) (c : Context),
      wrapChain (m :: ms) h c = m c (wrapChain ms h) := by
    intro m ms h c
    cases ms with
    | nil => simp [wrapChain, wrapMiddleware]
    | cons m2 t => simp [wrapChain, wrapMiddleware]
  refine ⟨fun h => rfl, h2, ?_⟩
  intro m ms ms' h h' c res hshort
  rw [h2, h2]
  exact ⟨hshort _, hshort _⟩

/-- Witness for C3's short-circuit clause: a middleware that never calls
next yields its own response through chains of length one and two, with a
handler that would be a nil response if it were ever reached. -/
theorem wrapChain_composition_witness :
    wrapChain [fun _ _ => some Respond] (fun _ => none) NewContext = some Respond
    ∧ wrapChain [fun _ _ => some Respond, fun c next => next c] (fun _ => none)
        NewContext = some Respond :=
  (wrapChain_composition).2.2 (fun _ _ => some Respond) [] [fun c next => next c]
    (fun _ => none) (fun _ => none) NewContext (some Respond) (fun _ => rfl)

/-! ## Claim C9 -/

/-- C9: when the composed chain returns a nil response, the dispatch
wrapper panics with the fixed message and nothing is written to the sink
(the panicked outcome carries no write events); when the chain returns a
response, the wrapper completes with the write's events and only records
the write error (a failed write yields the ok outcome with the logged
error, never a panic). -/
theorem wrap_nil_response_panics (mws : List Middleware) (handler : Handler) (c : Context)
    (marshal : JVal → Except String String) (sink : Sink) :
    (wrapChain mws handler c = none →
      wrapDispatch mws handler c marshal sink
        = .panicked "received nil response from handler")
    ∧ (∀ res, wrapChain mws handler c = some res →
      wrapDispatch mws handler c marshal sink
        = .ok (res.Write marshal sink).1 (res.Write marshal sink).2) := by
  constructor
  · intro h
    simp [wrapDispatch, h]
  · intro res h
    simp [wrapDispatch, h]

/-- Witness for C9 at a concrete nil-returning handler. -/
theorem wrap_nil_response_panics_witness :
    wrapDispatch [] (fun _ => none) NewContext marshalFlat ⟨none⟩
      = .panicked "received nil response from handler" :=
  (wrap_nil_response_panics [] (fun _ => none) NewContext marshalFlat ⟨none⟩).1 rfl

/-! ## Claim C10 -/

/-- C10: Server method registration replaces an empty path with "/" before
building the pattern, so registering "" and "/" produce identical
registrations (same pattern, same combined middleware, same handler),
while Group registration applies no such substitution: with base path
"/api" the empty path registers pattern "GET /api", which differs from the
"GET /api/" registered for path "/". -/
theorem emptyPath_registration (s : ServerM) (method : String) (handler : Handler)
    (mws : List Middleware) (g : GroupM) :
    s.handleMethod method "" handler mws = s.handleMethod method "/" handler mws
    ∧ s.GET "" handler mws = s.GET "/" handler mws
    ∧ (GroupM.handleMethod g method "" handler mws).pattern = method ++ " " ++ g.basePath
    ∧ (GroupM.handleMethod ⟨"/api", []⟩ "GET" "" handler mws).pattern = "GET /api"
    ∧ (GroupM.handleMethod ⟨"/api", []⟩ "GET" "/" handler mws).pattern = "GET /api/"
    ∧ ("GET /api" : String) ≠ "GET /api/" := by
  refine ⟨rfl, rfl, ?_, rfl, rfl, by decide⟩
  simp [GroupM.handleMethod]

/-! ## Claim C4 -/

/-- C4: ConditionalIfModifiedSince returns no response when the
If-Modified-Since header is absent; a bad-request response when it is
present but unparsable; no response when the maximum of the supplied
last-modified times, truncated to whole seconds, is strictly after the
parsed date; and a not-modified response carrying a Last-Modified header
when that truncated maximum is at or before the parsed date. -/
theorem conditionalIMS_cases (parseTime : String → Option GoTime)
    (fmtTime : GoTime → String) (ims : String) (lms : List GoTime) :
    (ims = "" → conditionalIfModifiedSince parseTime fmtTime ims lms = none)
    ∧ (ims ≠ "" → parseTime ims = none →
        conditionalIfModifiedSince parseTime fmtTime ims lms
          = some (Respond.BadRequest (some (ErrorDto.toJVal
              ⟨"BadRequest", "invalid value for \x27If-Modified-Since\x27"⟩))))
    ∧ (∀ t, ims ≠ "" → parseTime ims = some t →
        truncateSecond (maxTime lms) > t →
        conditionalIfModifiedSince parseTime fmtTime ims lms = none)
    ∧ (∀ t, ims ≠ "" → parseTime ims = some t →
        truncateSecond (maxTime lms) ≤ t →
        conditionalIfModifiedSince parseTime fmtTime ims lms
          = some ((Respond.NotModified).LastModified fmtTime
              (truncateSecond (maxTime lms)))) := by
  refine ⟨?_, ?_, ?_, ?_⟩
  · intro h
    simp [conditionalIfModifiedSince, ifModifiedSince, h]
  · intro h hp
    simp [conditionalIfModifiedSince, ifModifiedSince, h, hp]
  · intro t h hp hlt
    simp [conditionalIfModifiedSince, ifModifiedSince, h, hp, hlt]
  · intro t h hp hle
    simp [conditionalIfModifiedSince, ifModifiedSince, h, hp, not_lt.mpr hle]

/-- Witness for C4 covering all four branches at concrete inputs (the
parser accepts exactly "x", as a date of five seconds past the zero
time). -/
theorem conditionalIMS_cases_witness :
    (conditionalIfModifiedSince (fun s => if s = "x" then some (5 * nsPerSecond) else none)
        toString "" [] = none)
    ∧ (conditionalIfModifiedSince (fun s => if s = "x" then some (5 * nsPerSecond) else none)
        toString "bad" []
        = some (Respond.BadRequest (some (ErrorDto.toJVal
            ⟨"BadRequest", "invalid value for \x27If-Modified-Since\x27"⟩))))
    ∧ (conditionalIfModifiedSince (fun s => if s = "x" then some (5 * nsPerSecond) else none)
        toString "x" [6500000000] = none)
    ∧ (conditionalIfModifiedSince (fun s => if s = "x" then some (5 * nsPerSecond) else none)
        toString "x" [4500000000]
        = some ((Respond.NotModified).LastModified toString
            (truncateSecond (maxTime [4500000000])))) := by
  refine ⟨?_, ?_, ?_, ?_⟩
  · exact (conditionalIMS_cases _ _ "" []).1 rfl
  · exact (conditionalIMS_cases _ _ "bad" []).2.1 (by decide) rfl
  · exact (conditionalIMS_cases _ _ "x" [6500000000]).2.2.1 (5 * nsPerSecond)
      (by decide) rfl (by decide)
  · exact (conditionalIMS_cases _ _ "x" [4500000000]).2.2.2 (5 * nsPerSecond)
      (by decide) rfl (by decide)

/-! ## Claim C5 -/

/-- C5: with trust enabled and headers configured, Resolve is the
header-derived chain with the peer address appended exactly when that
chain is empty or its last element differs from the peer; in particular
the spec's concrete instances hold: X-Forwarded-For "10.0.0.1, 10.0.0.2"
with peer 192.168.1.1 resolves to the three addresses with the peer
appended, and the same header already ending in the peer resolves to the
same three addresses with no duplicate. -/
theorem resolve_appends_peer (hdrs : List String) (req : IPRequest) (hne : hdrs ≠ []) :
    (IPResolver.Resolve ⟨hdrs, true⟩ req
      = if headerDerivedChain ⟨hdrs, true⟩ req = []
            ∨ (headerDerivedChain ⟨hdrs, true⟩ req).getLast?
                ≠ some (hostFromRemoteAddr req.remoteAddr)
        then headerDerivedChain ⟨hdrs, true⟩ req ++ [hostFromRemoteAddr req.remoteAddr]
        else headerDerivedChain ⟨hdrs, true⟩ req)
    ∧ (NewIPResolver ["X-Forwarded-For"] true).Resolve
        ⟨"192.168.1.1:1234", [("X-Forwarded-For", "10.0.0.1, 10.0.0.2")]⟩
        = ["10.0.0.1", "10.0.0.2", "192.168.1.1"]
    ∧ (NewIPResolver ["X-Forwarded-For"] true).Resolve
        ⟨"192.168.1.1:1234", [("X-Forwarded-For", "10.0.0.1, 10.0.0.2, 192.168.1.1")]⟩
        = ["10.0.0.1", "10.0.0.2", "192.168.1.1"] := by
  refine ⟨?_, by decide, by decide⟩
  have h : hdrs.isEmpty = false := by
    cases hdrs with
    | nil => exact absurd rfl hne
    | cons a t => rfl
  simp [IPResolver.Resolve, h]

/-- Witness for C5 at the spec's concrete request. -/
theorem resolve_appends_peer_witness :
    (NewIPResolver ["X-Forwarded-For"] true).Resolve
        ⟨"192.168.1.1:1234", [("X-Forwarded-For", "10.0.0.1, 10.0.0.2")]⟩
      = ["10.0.0.1", "10.0.0.2", "192.168.1.1"] :=
  (resolve_appends_peer ["X-Forwarded-For"]
    ⟨"192.168.1.1:1234", [("X-Forwarded-For", "10.0.0.1, 10.0.0.2")]⟩
    (by decide)).2.1

/-! ## Claim C8 -/

/-- C8: a status-setting convenience operation with no body argument
changes only the status code (the raw body, JSON body, streaming body,
headers, cookies and after-write callbacks are untouched); with a body
argument it additionally sets the JSON body and the JSON content type and
nothing else. -/
theorem statusWithBody_frame (r : Response) (status : Nat) (b : JVal) :
    r.statusWithBody status none = { r with StatusCode := status }
    ∧ r.NotFound none = { r with StatusCode := 404 }
    ∧ r.BadRequest none = { r with StatusCode := 400 }
    ∧ r.Created none = { r with StatusCode := 201 }
    ∧ r.Conflict none = { r with StatusCode := 409 }
    ∧ r.statusWithBody status (some b)
        = { r with StatusCode := status, jsonBody := some b,
                   headers := headerSet r.headers "Content-Type"
                     "application/json;charset=UTF-8" } :=
  ⟨rfl, rfl, rfl, rfl, rfl, rfl⟩

/-! ## Claim C6 -/

/-- Once the context has memoized a resolution, further ClientIP/RemoteIP
calls return the stored first/last address and never invoke the resolver
again. -/
theorem runIPCalls_resolved (res : List String) (calls : List IPCall) (c : Context)
    (hc : c.ipResolved = true) (ha : c.ipAddresses = res) :
    runIPCalls res calls c
      = (c, calls.map (fun call => match call with
          | .client => res.headD ""
          | .remote => res.getLastD ""), 0) := by
  induction calls with
  | nil => simp [runIPCalls]
  | cons call rest ih =>
    cases call <;>
      simp [runIPCalls, Context.ClientIP, Context.RemoteIP, Context.resolveIfNeeded,
        hc, ha, ih]

/-- C6: over any sequence of ClientIP/RemoteIP calls on a fresh context,
every ClientIP call returns the first element and every RemoteIP call the
last element of the resolver's sequence, and the resolver is invoked at
most once — exactly once when any call was made, never when none was. -/
theorem clientIP_remoteIP_memoized (res : List String) (calls : List IPCall) :
    ((runIPCalls res calls NewContext).2.1
        = calls.map fun call => match call with
            | .client => res.headD ""
            | .remote => res.getLastD "")
    ∧ (runIPCalls res calls NewContext).2.2 ≤ 1
    ∧ ((runIPCalls res calls NewContext).2.2 = 0 ↔ calls = []) := by
  cases calls with
  | nil => simp [runIPCalls]
  | cons call rest =>
    cases call <;>
      simp [runIPCalls, Context.ClientIP, Context.RemoteIP, Context.resolveIfNeeded,
        NewContext, runIPCalls_resolved res rest ⟨true, res⟩ rfl rfl]

/-! ## Claim C7 -/

/-- Chaining checks onto an existing aggregate appends exactly the failing
checks' violations, in order. -/
theorem runChecks_some (checks : List Check) (e : ValidationError) :
    runChecks checks (some e)
      = some { e with
          Errors := e.Errors ++ ((checks.filter fun c => !c.cond).map Check.violation) } := by
  induction checks generalizing e with
  | nil => simp [runChecks]
  | cons c rest ih =>
    have hstep : runChecks (c :: rest) (some e)
        = runChecks rest (Require c.Field c.Code c.Message c.cond (some e)) := rfl
    by_cases hc : c.cond
    · rw [hstep]
      simp [Require, hc, ih, List.filter_cons]
    · rw [hstep]
      simp only [Require, hc, if_neg, Bool.false_eq_true, not_false_eq_true, merge]
      rw [ih]
      simp [List.filter_cons, hc, Check.violation]

/-- C7: threading N checks through Require yields nil when none fails, and
otherwise a ValidationError with code "invalid_data", message
"Invalid data", and exactly the failing checks' violations in the order the
checks were performed; in particular the violation count equals the number
of failing checks. -/
theorem require_chain_aggregates (checks : List Check) :
    (runChecks checks none
      = if (checks.filter fun c => !c.cond) = [] then none
        else some ⟨"invalid_data", "Invalid data",
            (checks.filter fun c => !c.cond).map Check.violation⟩)
    ∧ ((runChecks checks none).elim 0 (fun v => v.Errors.length)
        = (checks.filter fun c => !c.cond).length) := by
  have key : runChecks checks none
      = if (checks.filter fun c => !c.cond) = [] then none
        else some ⟨"invalid_data", "Invalid data",
            (checks.filter fun c => !c.cond).map Check.violation⟩ := by
    induction checks with
    | nil => simp [runChecks]
    | cons c rest ih =>
      have hstep : runChecks (c :: rest) none
          = runChecks rest (Require c.Field c.Code c.Message c.cond none) := rfl
      by_cases hc : c.cond
      · rw [hstep]
        simp [Require, hc, ih, List.filter_cons]
      · rw [hstep]
        simp only [Require, hc, if_neg, Bool.false_eq_true, not_false_eq_true, merge]
        rw [runChecks_some]
        simp [List.filter_cons, hc, Check.violation]
  refine ⟨key, ?_⟩
  by_cases hfil : (checks.filter fun c => !c.cond) = []
  · simp [key, hfil]
  · simp [key, hfil]

end Srv
